import Mathlib

/-!
A shallow embedding of the LangGraph research agent in this repository:
the `ResearchState` channel definitions with their reducers (state.ts),
the node implementations `planNode`, `searchNode`, `synthesizeNode`
(nodes.ts), and the graph wiring with the post-validation router
(agent.ts).  External collaborators (the chat model and the Tavily search
client) are parameters of the node functions; `Date.now()` is a `Nat`
parameter.  JavaScript `JSON.parse`, as used by `planNode`, is modelled by
an executable parser `parseJson` implementing the JSON grammar: null,
booleans, numbers (full grammar — optional sign, no leading zeros, optional
fraction and exponent — with the literal text kept, since no numeric value
is ever consumed), strings (with the escape sequences, \u code units and
surrogate-pair combination, and rejection of unescaped control
characters), arrays and objects with last-duplicate-key-wins lookup.  The
one documented fragment boundary: a lone surrogate \u escape, which
`JSON.parse` turns into an unpaired UTF-16 code unit no Lean string can
carry, makes the model parser fail; no theorem below evaluates such a
reply.
-/

/-- JSON values, the result type of the `JSON.parse` model.  A number
carries its source literal: the engine never consumes a numeric value (the
plan fields it reads are strings), so the double value is not computed. -/
inductive Json where
  | null
  | bool (b : Bool)
  | num (lit : String)
  | str (s : String)
  | arr (elems : List Json)
  | obj (fields : List (String × Json))

/-- The left-brace character, written via its code point. -/
def lbraceChar : Char := Char.ofNat 123

/-- The right-brace character, written via its code point. -/
def rbraceChar : Char := Char.ofNat 125

/-- Drop leading JSON whitespace (space, tab, newline, carriage return). -/
def skipWs : List Char → List Char
  | [] => []
  | c :: rest =>
    if c = ' ' ∨ c = Char.ofNat 9 ∨ c = Char.ofNat 10 ∨ c = Char.ofNat 13 then
      skipWs rest
    else c :: rest

/-- The value of one hexadecimal digit. -/
def hexVal (c : Char) : Option Nat :=
  if c.isDigit then some (c.toNat - 48)
  else if 'a' ≤ c ∧ c ≤ 'f' then some (c.toNat - 87)
  else if 'A' ≤ c ∧ c ≤ 'F' then some (c.toNat - 55)
  else none

/-- The value of a four-hex-digit escape body. -/
def hex4 (a b c d : Char) : Option Nat :=
  match hexVal a, hexVal b, hexVal c, hexVal d with
  | some x, some y, some z, some w => some (((x * 16 + y) * 16 + z) * 16 + w)
  | _, _, _, _ => none

/-- Parse the body of a JSON string literal (the opening quote already
consumed), returning the content characters and the remainder after the
closing quote.  As in `JSON.parse`: the escapes \" \\ \/ \b \f \n \r \t
and \u with four hex digits are decoded (a surrogate pair of two \u
escapes combines into one scalar), any other escape is an error, and an
unescaped control character (code below 32) is an error.  A lone
surrogate escape, which `JSON.parse` accepts as an unpaired UTF-16 code
unit, has no Lean representation and fails — the documented fragment
boundary. -/
def parseStringBody : List Char → Option (List Char × List Char)
  | [] => none
  | c :: rest =>
    if c = '\"' then some ([], rest)
    else if c = '\\' then
      match rest with
      | 'u' :: h1 :: h2 :: h3 :: h4 :: rest2 =>
        (match hex4 h1 h2 h3 h4 with
         | none => none
         | some code =>
           if code < 55296 ∨ 57344 ≤ code then
             match parseStringBody rest2 with
             | none => none
             | some (cs, rest3) => some (Char.ofNat code :: cs, rest3)
           else if code ≤ 56319 then
             match rest2 with
             | '\\' :: 'u' :: g1 :: g2 :: g3 :: g4 :: rest3 =>
               (match hex4 g1 g2 g3 g4 with
                | none => none
                | some lo =>
                  if 56320 ≤ lo ∧ lo ≤ 57343 then
                    match parseStringBody rest3 with
                    | none => none
                    | some (cs, rest4) =>
                      some (Char.ofNat (65536 + (code - 55296) * 1024 + (lo - 56320)) :: cs,
                        rest4)
                  else none)
             | _ => none
           else none)
      | e :: rest2 =>
        let esc : Option Char :=
          if e = '\"' then some '\"'
          else if e = '\\' then some '\\'
          else if e = '/' then some '/'
          else if e = 'n' then some (Char.ofNat 10)
          else if e = 't' then some (Char.ofNat 9)
          else if e = 'r' then some (Char.ofNat 13)
          else if e = 'b' then some (Char.ofNat 8)
          else if e = 'f' then some (Char.ofNat 12)
          else none
        match esc with
        | none => none
        | some ch =>
          match parseStringBody rest2 with
          | none => none
          | some (cs, rest3) => some (ch :: cs, rest3)
      | [] => none
    else if c.toNat < 32 then none
    else
      match parseStringBody rest with
      | none => none
      | some (cs, rest2) => some (c :: cs, rest2)

/-- Consume a maximal (possibly empty) run of decimal digits. -/
def digitRun : List Char → List Char × List Char
  | [] => ([], [])
  | c :: rest =>
    if c.isDigit then
      match digitRun rest with
      | (ds, r) => (c :: ds, r)
    else ([], c :: rest)

/-- The integer part of a JSON number: a single 0, or a nonzero digit
followed by digits — a leading zero before further digits is not part of a
valid number (as in `JSON.parse`, where the stray digits then make the
whole parse fail). -/
def parseIntPart : List Char → Option (List Char × List Char)
  | [] => none
  | c :: rest =>
    if c = '0' then some ([c], rest)
    else if c.isDigit then
      match digitRun rest with
      | (ds, r) => some (c :: ds, r)
    else none

/-- The optional fraction part: a dot followed by at least one digit;
a dot without digits is left unconsumed (and then fails the enclosing
parse, as in `JSON.parse`). -/
def parseFracPart (cs : List Char) : List Char × List Char :=
  match cs with
  | '.' :: rest =>
    (match digitRun rest with
     | ([], _) => ([], cs)
     | (ds, r) => ('.' :: ds, r))
  | _ => ([], cs)

/-- The optional exponent part: e or E, an optional sign, and at least one
digit; anything less is left unconsumed. -/
def parseExpPart (cs : List Char) : List Char × List Char :=
  match cs with
  | c :: d :: rest =>
    if c = 'e' ∨ c = 'E' then
      if d = '+' ∨ d = '-' then
        match digitRun rest with
        | ([], _) => ([], cs)
        | (ds, r) => (c :: d :: ds, r)
      else
        match digitRun (d :: rest) with
        | ([], _) => ([], cs)
        | (ds, r) => (c :: ds, r)
    else ([], cs)
  | _ => ([], cs)

/-- Parse a JSON number literal — optional minus sign, integer part,
optional fraction, optional exponent — returning its source text. -/
def parseNumberLit (cs : List Char) : Option (List Char × List Char) :=
  let (sign, cs1) :=
    match cs with
    | '-' :: rest => (['-'], rest)
    | _ => (([] : List Char), cs)
  match parseIntPart cs1 with
  | none => none
  | some (ip, cs2) =>
    match parseFracPart cs2 with
    | (fp, cs3) =>
      match parseExpPart cs3 with
      | (ep, cs4) => some (sign ++ ip ++ fp ++ ep, cs4)

mutual

/-- Parse one JSON value.  The fuel argument bounds nesting depth and list
length; `parseJson` supplies enough fuel for its input. -/
def parseVal : Nat → List Char → Option (Json × List Char)
  | 0, _ => none
  | Nat.succ fuel, cs =>
    match skipWs cs with
    | '\"' :: rest =>
      match parseStringBody rest with
      | none => none
      | some (content, rest2) => some (Json.str (String.mk content), rest2)
    | 't' :: 'r' :: 'u' :: 'e' :: rest => some (Json.bool true, rest)
    | 'f' :: 'a' :: 'l' :: 's' :: 'e' :: rest => some (Json.bool false, rest)
    | 'n' :: 'u' :: 'l' :: 'l' :: rest => some (Json.null, rest)
    | '[' :: rest =>
      match skipWs rest with
      | ']' :: rest2 => some (Json.arr [], rest2)
      | _ =>
        match parseArrItems fuel (skipWs rest) with
        | none => none
        | some (elems, rest2) => some (Json.arr elems, rest2)
    | c :: rest =>
      if c = lbraceChar then
        match skipWs rest with
        | d :: rest2 =>
          if d = rbraceChar then some (Json.obj [], rest2)
          else
            match parseObjFields fuel (skipWs rest) with
            | none => none
            | some (fields, rest2) => some (Json.obj fields, rest2)
        | [] => none
      else
        match parseNumberLit (c :: rest) with
        | none => none
        | some (lit, rest2) => some (Json.num (String.mk lit), rest2)
    | [] => none

/-- Parse the comma-separated items of a JSON array, consuming the closing
bracket. -/
def parseArrItems : Nat → List Char → Option (List Json × List Char)
  | 0, _ => none
  | Nat.succ fuel, cs =>
    match parseVal fuel cs with
    | none => none
    | some (j, rest) =>
      match skipWs rest with
      | ',' :: rest2 =>
        match parseArrItems fuel rest2 with
        | none => none
        | some (elems, rest3) => some (j :: elems, rest3)
      | ']' :: rest2 => some ([j], rest2)
      | _ => none

/-- Parse the comma-separated fields of a JSON object, consuming the
closing brace. -/
def parseObjFields : Nat → List Char → Option (List (String × Json) × List Char)
  | 0, _ => none
  | Nat.succ fuel, cs =>
    match skipWs cs with
    | '\"' :: rest =>
      match parseStringBody rest with
      | none => none
      | some (key, rest2) =>
        match skipWs rest2 with
        | ':' :: rest3 =>
          match parseVal fuel rest3 with
          | none => none
          | some (v, rest4) =>
            match skipWs rest4 with
            | ',' :: rest5 =>
              match parseObjFields fuel rest5 with
              | none => none
              | some (fields, rest6) => some ((String.mk key, v) :: fields, rest6)
            | d :: rest5 =>
              if d = rbraceChar then some ([(String.mk key, v)], rest5)
              else none
            | [] => none
        | _ => none
    | _ => none

end

/-- Model of JavaScript `JSON.parse` on the fragment described above: the
whole input, up to surrounding whitespace, must be one JSON value. -/
def parseJson (s : String) : Option Json :=
  match parseVal (s.length + 1) s.toList with
  | none => none
  | some (j, rest) => if skipWs rest = [] then some j else none

/-- Model of `content.match(/\x7b[\s\S]*\x7d/)` in planNode: the regex
matches from the first left brace to the last right brace of the reply,
provided some right brace follows the first left brace. -/
def extractBraces (content : String) : Option String :=
  let cs := content.toList
  match cs.findIdx? (fun c => c == lbraceChar), (cs.reverse.findIdx? (fun c => c == rbraceChar)) with
  | some i, some k =>
    let j := cs.length - 1 - k
    if i < j then some (String.mk ((cs.drop i).take (j - i + 1))) else none
  | _, _ => none

/-- Field lookup on a parsed JSON object; as in JavaScript, a duplicated
key keeps the last occurrence. -/
def lookupField (fields : List (String × Json)) (key : String) : Option Json :=
  match fields with
  | [] => none
  | (k, v) :: rest =>
    match lookupField rest key with
    | some v2 => some v2
    | none => if k = key then some v else none

mutual

/-- Model of the JavaScript string conversion `String(x)` of a parsed JSON
value — the conversion `Array.prototype.join` applies to each element and
the one template-literal interpolation applies.  It is the identity on
strings, the only case any theorem below evaluates; numbers render via
their source literal (an approximation of double formatting, since the
double value is never computed); arrays join their elements with commas
and objects render as `[object Object]`, as in JavaScript. -/
def jsToString : Json → String
  | Json.null => "null"
  | Json.bool true => "true"
  | Json.bool false => "false"
  | Json.num lit => lit
  | Json.str s => s
  | Json.arr elems => jsListToString elems
  | Json.obj _ => "[object Object]"

/-- Comma-joined string conversion of a list of JSON values, as
`String(array)` produces. -/
def jsListToString : List Json → String
  | [] => ""
  | [j] => jsToString j
  | j :: rest => jsToString j ++ "," ++ jsListToString rest

end

/-- The `queries` field of the parsed plan object when it is an array —
any array.  `planNode` evaluates `plan.queries.join(", ")`, which throws a
TypeError exactly when the field is absent or its value is not an array;
this function returns `none` exactly in those throwing cases and never
inspects the elements, just as the source performs no element check. -/
def getQueriesArr (j : Json) : Option (List Json) :=
  match j with
  | Json.obj fields =>
    match lookupField fields "queries" with
    | some (Json.arr xs) => some xs
    | _ => none
  | _ => none

/-- Recognize a queries array all of whose elements are strings, returning
them.  This is not part of `planNode` — the source never checks element
types — it only delimits, in theorem statements, the replies whose plan is
a string-query plan. -/
def asStringList : List Json → Option (List String)
  | [] => some []
  | Json.str s :: rest => (asStringList rest).map (fun t => s :: t)
  | _ => none

/-- The parsed object's queries as a string list, when the field is an
array of strings: the shape the spec's data model declares.  Used in
theorem statements only. -/
def getQueries (j : Json) : Option (List String) :=
  (getQueriesArr j).bind asStringList

/-- The `reasoning` field of the parsed plan object, absent when the key
is missing.  The source stores the raw parsed value and never checks it —
`plan.reasoning` only flows into a template-literal interpolation, which
string-converts it — so a present value is represented by its string
conversion, the identity in the string case. -/
def getReasoning (j : Json) : Option String :=
  match j with
  | Json.obj fields => (lookupField fields "reasoning").map jsToString
  | _ => none

/-- Composition of the two parsing stages of planNode: regex extraction of
the brace-delimited substring, then `JSON.parse`. -/
def planJson (content : String) : Option Json :=
  (extractBraces content).bind parseJson

/-- SearchResult, from state.ts: one normalized web search hit.  The
`score` is a JavaScript number; modelled as a rational. -/
structure SearchResult where
  title : String
  url : String
  content : String
  score : ℚ
deriving DecidableEq

/-- ResearchPlan, from state.ts.  state.ts declares `reasoning : string`,
but `planNode` stores the raw `JSON.parse` result, which at run time may
lack the field; the model therefore carries it as an `Option`. -/
structure ResearchPlan where
  queries : List String
  reasoning : Option String
deriving DecidableEq

/-- The metadata channel value: steps completed so far, the run start
time, and the end time once set.  Timestamps are `Date.now()` values,
modelled as `Nat`. -/
structure RunMetadata where
  steps : List String
  startTime : Nat
  endTime : Option Nat
deriving DecidableEq

/-- ResearchState, from state.ts: the typed state shared by all nodes. -/
structure ResearchState where
  question : String
  isValidQuestion : Bool
  plan : Option ResearchPlan
  searchResults : List SearchResult
  report : Option String
  metadata : RunMetadata
deriving DecidableEq

/-- A partial update of the metadata channel.  A `none` in `startTime` or
`endTime` models the key being absent from the update object; `steps`
absent and `steps` empty are indistinguishable in the reducer
(`update.steps || []`), so both are the empty list. -/
structure MetaUpdate where
  steps : List String := []
  startTime : Option Nat := none
  endTime : Option Nat := none
deriving DecidableEq

/-- A partial state update as returned by a node.  The outer `Option` of
each field models whether the key is present in the returned object; for
`isValidQuestion`, `plan` and `report` the inner `Option` models an
undefined/null value. -/
structure ResearchUpdate where
  question : Option String := none
  isValidQuestion : Option (Option Bool) := none
  plan : Option (Option ResearchPlan) := none
  searchResults : Option (List SearchResult) := none
  report : Option (Option String) := none
  metadata : Option MetaUpdate := none
deriving DecidableEq

/-- Reducer of the `isValidQuestion` channel, from state.ts:
`(_, update) => update ?? true`. -/
def isValidQuestionReducer (_current : Bool) (update : Option Bool) : Bool :=
  update.getD true

/-- Reducer of the `plan` channel, from state.ts: `(_, update) => update`. -/
def planReducer (_current : Option ResearchPlan) (update : Option ResearchPlan) :
    Option ResearchPlan :=
  update

/-- Reducer of the `searchResults` channel, from state.ts:
`(current, update) => [...current, ...update]`. -/
def searchResultsReducer (current update : List SearchResult) : List SearchResult :=
  current ++ update

/-- Reducer of the `report` channel, from state.ts: `(_, update) => update`. -/
def reportReducer (_current : Option String) (update : Option String) : Option String :=
  update

/-- Reducer of the `metadata` channel, from state.ts: shallow-merge the
update keys over the current value, except `steps`, which is the
concatenation `[...current.steps, ...(update.steps || [])]`. -/
def metadataReducer (current : RunMetadata) (update : MetaUpdate) : RunMetadata :=
  { steps := current.steps ++ update.steps
    startTime := update.startTime.getD current.startTime
    endTime := match update.endTime with
      | some t => some t
      | none => current.endTime }

/-- Merge a node's partial update into the state: for every channel whose
key is present in the update, apply that channel's reducer; absent
channels are untouched.  The `question` channel has no declared reducer,
so it gets the default last-value channel. -/
def applyUpdate (s : ResearchState) (u : ResearchUpdate) : ResearchState :=
  { question := match u.question with
      | none => s.question
      | some q => q
    isValidQuestion := match u.isValidQuestion with
      | none => s.isValidQuestion
      | some v => isValidQuestionReducer s.isValidQuestion v
    plan := match u.plan with
      | none => s.plan
      | some v => planReducer s.plan v
    searchResults := match u.searchResults with
      | none => s.searchResults
      | some v => searchResultsReducer s.searchResults v
    report := match u.report with
      | none => s.report
      | some v => reportReducer s.report v
    metadata := match u.metadata with
      | none => s.metadata
      | some m => metadataReducer s.metadata m }

/-- The state a run starts from: every channel at its declared default,
with the caller-supplied question overlaid and the creation time as
`startTime`. -/
def createInitialState (question : String) (t0 : Nat) : ResearchState :=
  { question := question
    isValidQuestion := true
    plan := none
    searchResults := []
    report := none
    metadata := { steps := [], startTime := t0, endTime := none } }

/-- The errors a run can surface.  `planParse` models both
`Error("Failed to parse plan from LLM response")` (no regex match) and the
SyntaxError thrown by `JSON.parse` — the failures the spec groups as
`PlanParseError`.  `typeError` models the TypeError thrown by
`plan.queries.join` when the parsed object has no `queries` array.
`missingPlan` models `Error("No search queries in plan")`, the spec's
`MissingPlanError`.  `executionError` models a collaborator call throwing,
which propagates unchanged.  `routingError` models a router label with no
registered edge. -/
inductive NodeError where
  | executionError
  | planParse
  | typeError
  | missingPlan
  | routingError
deriving DecidableEq

/-- The structured verdict of the validation collaborator (spec §4.3). -/
structure ValidationVerdict where
  valid : Bool
  reason : String
  suggestion : Option String

/-- Modelled from the spec: `validateQuestionNode` is imported by agent.ts
but its source file is not under src/.  Spec §4.3: it delegates to the
language-model collaborator, which returns a structured verdict
`(valid, reason, suggestion)`; its output is a partial update setting
`isValidQuestion` and appending "validate" to the metadata steps; a
collaborator failure is fatal and propagates as an ExecutionError. -/
def validateQuestionNode (llm : String → Except Unit ValidationVerdict)
    (s : ResearchState) : Except NodeError ResearchUpdate :=
  match llm s.question with
  | Except.error _ => Except.error NodeError.executionError
  | Except.ok v =>
    Except.ok { isValidQuestion := some (some v.valid)
                metadata := some { steps := ["validate"] } }

/-- planNode, from nodes.ts: ask the model for a plan, take the
brace-delimited substring of the reply, `JSON.parse` it, log
`plan.reasoning` and `plan.queries.join(", ")` — the join throwing a
TypeError exactly when `queries` is absent or not an array, with no check
on the elements — and return the parsed plan with "plan" appended to steps
and the start time forwarded.  The collaborator call itself failing is
fatal.  The source stores the raw parsed object; the typed model
represents each stored query by its JavaScript string conversion
(`jsToString`), the identity for string elements — the only elements any
theorem below evaluates — so success and failure coincide with the source
on every reply. -/
def planNode (llm : String → Except Unit String) (s : ResearchState) :
    Except NodeError ResearchUpdate :=
  match llm s.question with
  | Except.error _ => Except.error NodeError.executionError
  | Except.ok content =>
    match extractBraces content with
    | none => Except.error NodeError.planParse
    | some jsonText =>
      match parseJson jsonText with
      | none => Except.error NodeError.planParse
      | some j =>
        match getQueriesArr j with
        | none => Except.error NodeError.typeError
        | some elems =>
          Except.ok
            { plan := some (some { queries := elems.map jsToString,
                                   reasoning := getReasoning j })
              metadata := some { steps := ["plan"], startTime := some s.metadata.startTime } }

/-- One raw result of the Tavily search collaborator, before the
normalization in searchNode; absent fields are `none`. -/
structure RawResult where
  title : Option String := none
  url : Option String := none
  content : Option String := none
  score : Option ℚ := none

/-- The Tavily response object; `results := none` models a response whose
`results` field is absent (searchNode then pushes nothing). -/
structure TavilyResponse where
  results : Option (List RawResult)

/-- JavaScript `x || dflt` on an optional string: both an absent field and
the empty string are falsy. -/
def jsOrElse (o : Option String) (dflt : String) : String :=
  match o with
  | none => dflt
  | some s => if s = "" then dflt else s

/-- Normalization of one raw search hit, from searchNode:
`title || "No title"`, `url || ""`, `content || ""`, `score || 0.5`
(JavaScript `||`, so a zero score also falls back to 0.5). -/
def normalizeResult (r : RawResult) : SearchResult :=
  { title := jsOrElse r.title "No title"
    url := jsOrElse r.url ""
    content := jsOrElse r.content ""
    score := match r.score with
      | none => (1 : ℚ) / 2
      | some q => if q = 0 then (1 : ℚ) / 2 else q }

/-- The results one query contributes: a throwing search call (`none` from
the collaborator) is caught and contributes nothing, as does a response
without a `results` field; otherwise the normalized results. -/
def queryResults (tav : String → Option TavilyResponse) (q : String) : List SearchResult :=
  match tav q with
  | none => []
  | some resp =>
    match resp.results with
    | none => []
    | some rs => rs.map normalizeResult

/-- The accumulator loop of searchNode: each query in order, successful
results appended, per-query failures skipped. -/
def collectResults (tav : String → Option TavilyResponse) : List String → List SearchResult
  | [] => []
  | q :: rest => queryResults tav q ++ collectResults tav rest

/-- searchNode, from nodes.ts: throw MissingPlanError when the plan is
absent or has no queries, otherwise run every query in order, swallowing
per-query failures, and return the accumulated results with "search"
appended to steps and the start time forwarded.  The construction of the
Tavily client (an environment-variable check, outside the spec's scope) is
modelled by passing the client in. -/
def searchNode (tav : String → Option TavilyResponse) (s : ResearchState) :
    Except NodeError ResearchUpdate :=
  match s.plan with
  | none => Except.error NodeError.missingPlan
  | some p =>
    if p.queries.length = 0 then Except.error NodeError.missingPlan
    else
      Except.ok
        { searchResults := some (collectResults tav p.queries)
          metadata := some { steps := ["search"], startTime := some s.metadata.startTime } }

/-- The fixed degraded report of synthesizeNode when no results exist. -/
def noResultsReport : String := "Unable to generate report: no search results were found."

/-- One numbered evidence entry of the synthesis prompt. -/
def resultEntry (idx : Nat) (r : SearchResult) : String :=
  "[" ++ toString (idx + 1) ++ "] " ++ r.title ++ "\nURL: " ++ r.url ++
    "\nContent: " ++ r.content ++ "\n"

/-- The evidence block of the synthesis prompt, numbering results from 1. -/
def resultsText (rs : List SearchResult) : String :=
  String.intercalate "\n" (rs.enum.map (fun p => resultEntry p.1 p.2))

/-- synthesizeNode, from nodes.ts: with no search results, short-circuit
to the fixed degraded report, setting the end time and appending
"synthesize" — without consulting the model; otherwise ask the model for
the report over the rendered evidence block.  A collaborator failure is
fatal.  `now` is the `Date.now()` value at completion. -/
def synthesizeNode (llm : String → String → Except Unit String) (now : Nat)
    (s : ResearchState) : Except NodeError ResearchUpdate :=
  if s.searchResults.length = 0 then
    Except.ok
      { report := some (some noResultsReport)
        metadata := some { steps := ["synthesize"], startTime := some s.metadata.startTime,
                           endTime := some now } }
  else
    match llm s.question (resultsText s.searchResults) with
    | Except.error _ => Except.error NodeError.executionError
    | Except.ok text =>
      Except.ok
        { report := some (some text)
          metadata := some { steps := ["synthesize"], startTime := some s.metadata.startTime,
                             endTime := some now } }

/-- The nodes registered in agent.ts. -/
inductive GNode where
  | validate
  | planning
  | searching
  | synthesizing
deriving DecidableEq

/-- An edge target: another node, or the END marker. -/
inductive GTarget where
  | node (n : GNode)
  | terminal
deriving DecidableEq

/-- routeAfterValidation, from agent.ts: "reject" when
`state.isValidQuestion === false`, otherwise "planning". -/
def routeAfterValidation (s : ResearchState) : String :=
  if s.isValidQuestion = false then "reject" else "planning"

/-- The label map of the conditional edge out of "validate", from
agent.ts: "planning" goes to the planning node and "reject" to END; any
other label has no registered edge. -/
def conditionalEdgeMap (label : String) : Option GTarget :=
  if label = "planning" then some (GTarget.node GNode.planning)
  else if label = "reject" then some GTarget.terminal
  else none

/-- The entry edge of the graph: START goes to "validate". -/
def entryNode : GNode := GNode.validate

/-- The edge table of agent.ts: after "validate" the router decides; the
remaining edges are unconditional. -/
def nextAfter (n : GNode) (s : ResearchState) : Option GTarget :=
  match n with
  | GNode.validate => conditionalEdgeMap (routeAfterValidation s)
  | GNode.planning => some (GTarget.node GNode.searching)
  | GNode.searching => some (GTarget.node GNode.synthesizing)
  | GNode.synthesizing => some GTarget.terminal

/-- The external collaborators of one run, plus the completion clock
reading used by synthesizeNode. -/
structure Collaborators where
  validateLLM : String → Except Unit ValidationVerdict
  planLLM : String → Except Unit String
  tavily : String → Option TavilyResponse
  synthLLM : String → String → Except Unit String
  now : Nat

/-- The executor resuming at the "synthesizing" node: run it, merge its
update, and reach END (the unconditional edge synthesizing → END). -/
def runFromSynthesizing (env : Collaborators) (s3 : ResearchState) :
    Except NodeError ResearchState :=
  match synthesizeNode env.synthLLM env.now s3 with
  | Except.error e => Except.error e
  | Except.ok u4 => Except.ok (applyUpdate s3 u4)

/-- The executor resuming at the "searching" node: run it, merge its
update, and follow the unconditional edge searching → synthesizing. -/
def runFromSearching (env : Collaborators) (s2 : ResearchState) :
    Except NodeError ResearchState :=
  match searchNode env.tavily s2 with
  | Except.error e => Except.error e
  | Except.ok u3 => runFromSynthesizing env (applyUpdate s2 u3)

/-- The executor resuming at the "planning" node: run it, merge its
update, and follow the unconditional edge planning → searching. -/
def runFromPlanning (env : Collaborators) (s1 : ResearchState) :
    Except NodeError ResearchState :=
  match planNode env.planLLM s1 with
  | Except.error e => Except.error e
  | Except.ok u2 => runFromSearching env (applyUpdate s1 u2)

/-- One full invocation of the compiled graph, following the edge table of
agent.ts: start at "validate" with the initial state, merge each node's
update with `applyUpdate`, then take the conditional edge chosen by the
router on the post-update state ("reject" to END, "planning" into the
unconditional chain).  A node error aborts the run and propagates. -/
def runAgent (env : Collaborators) (question : String) (t0 : Nat) :
    Except NodeError ResearchState :=
  let s0 := createInitialState question t0
  match validateQuestionNode env.validateLLM s0 with
  | Except.error e => Except.error e
  | Except.ok u1 =>
    let s1 := applyUpdate s0 u1
    match conditionalEdgeMap (routeAfterValidation s1) with
    | some GTarget.terminal => Except.ok s1
    | some (GTarget.node GNode.planning) => runFromPlanning env s1
    | _ => Except.error NodeError.routingError

/-- One node of the graph completing on state `s` and its update being
merged: the transition relation of a run, used to reason about arbitrary
sequences of node updates. -/
inductive NodeStep : ResearchState → ResearchState → Prop where
  | validate (s : ResearchState) (llm : String → Except Unit ValidationVerdict)
      (u : ResearchUpdate) (h : validateQuestionNode llm s = Except.ok u) :
      NodeStep s (applyUpdate s u)
  | planning (s : ResearchState) (llm : String → Except Unit String)
      (u : ResearchUpdate) (h : planNode llm s = Except.ok u) :
      NodeStep s (applyUpdate s u)
  | searching (s : ResearchState) (tav : String → Option TavilyResponse)
      (u : ResearchUpdate) (h : searchNode tav s = Except.ok u) :
      NodeStep s (applyUpdate s u)
  | synthesizing (s : ResearchState) (llm : String → String → Except Unit String)
      (now : Nat) (u : ResearchUpdate) (h : synthesizeNode llm now s = Except.ok u) :
      NodeStep s (applyUpdate s u)

/-! ### Helper lemmas -/

lemma collectResults_eq_flatten (tav : String → Option TavilyResponse) (qs : List String) :
    collectResults tav qs = (qs.map (queryResults tav)).flatten := by
  induction qs with
  | nil => rfl
  | cons q rest ih => simp [collectResults, ih]

lemma route_edge (s : ResearchState) :
    conditionalEdgeMap (routeAfterValidation s) =
      if s.isValidQuestion = false then some GTarget.terminal
      else some (GTarget.node GNode.planning) := by
  cases hb : s.isValidQuestion <;>
    simp [routeAfterValidation, conditionalEdgeMap, hb]

lemma validateQuestionNode_ok_shape (llm : String → Except Unit ValidationVerdict)
    (s : ResearchState) (u : ResearchUpdate) (h : validateQuestionNode llm s = Except.ok u) :
    ∃ b, u = { isValidQuestion := some (some b), metadata := some { steps := ["validate"] } } := by
  unfold validateQuestionNode at h
  cases hv : llm s.question with
  | error e => rw [hv] at h; exact absurd h (by simp)
  | ok v =>
    rw [hv] at h
    simp only [Except.ok.injEq] at h
    exact ⟨v.valid, h.symm⟩

lemma planNode_ok_meta (llm : String → Except Unit String) (s : ResearchState)
    (u : ResearchUpdate) (h : planNode llm s = Except.ok u) :
    u.metadata = some { steps := ["plan"], startTime := some s.metadata.startTime } := by
  unfold planNode at h
  cases hc : llm s.question with
  | error e => rw [hc] at h; exact absurd h (by simp)
  | ok content =>
    rw [hc] at h; simp only [] at h
    cases he : extractBraces content with
    | none => rw [he] at h; exact absurd h (by simp)
    | some jsonText =>
      rw [he] at h; simp only [] at h
      cases hj : parseJson jsonText with
      | none => rw [hj] at h; exact absurd h (by simp)
      | some j =>
        rw [hj] at h; simp only [] at h
        cases hq : getQueriesArr j with
        | none => rw [hq] at h; exact absurd h (by simp)
        | some elems =>
          rw [hq] at h
          simp only [Except.ok.injEq] at h
          rw [← h]

lemma searchNode_ok_shape (tav : String → Option TavilyResponse) (s : ResearchState)
    (u : ResearchUpdate) (h : searchNode tav s = Except.ok u) :
    ∃ p, s.plan = some p ∧
      u = { searchResults := some (collectResults tav p.queries)
            metadata := some { steps := ["search"], startTime := some s.metadata.startTime } } := by
  unfold searchNode at h
  cases hp : s.plan with
  | none => rw [hp] at h; exact absurd h (by simp)
  | some p =>
    rw [hp] at h; simp only [] at h
    by_cases hq : p.queries.length = 0
    · rw [if_pos hq] at h; exact absurd h (by simp)
    · rw [if_neg hq] at h
      simp only [Except.ok.injEq] at h
      exact ⟨p, rfl, h.symm⟩

lemma synthesizeNode_ok_meta (llm : String → String → Except Unit String) (now : Nat)
    (s : ResearchState) (u : ResearchUpdate) (h : synthesizeNode llm now s = Except.ok u) :
    u.metadata = some { steps := ["synthesize"], startTime := some s.metadata.startTime,
                        endTime := some now } := by
  unfold synthesizeNode at h
  by_cases hz : s.searchResults.length = 0
  · rw [if_pos hz] at h
    simp only [Except.ok.injEq] at h
    rw [← h]
  · rw [if_neg hz] at h
    cases hc : llm s.question (resultsText s.searchResults) with
    | error e => rw [hc] at h; exact absurd h (by simp)
    | ok text =>
      rw [hc] at h
      simp only [Except.ok.injEq] at h
      rw [← h]

lemma applyUpdate_meta_steps (s : ResearchState) (u : ResearchUpdate) (m : MetaUpdate)
    (h : u.metadata = some m) :
    (applyUpdate s u).metadata.steps = s.metadata.steps ++ m.steps := by
  simp [applyUpdate, metadataReducer, h]

lemma applyUpdate_meta_startTime (s : ResearchState) (u : ResearchUpdate) :
    (applyUpdate s u).metadata.startTime =
      match u.metadata with
      | none => s.metadata.startTime
      | some m => m.startTime.getD s.metadata.startTime := by
  cases hm : u.metadata <;> simp [applyUpdate, metadataReducer, hm]

/-! ### Claims -/

/-- C2: the searchResults reducer is associative and order-preserving —
applying an update carrying `A` and then one carrying `B` yields
`s.searchResults ++ A ++ B` — and no update can shrink `searchResults`. -/
theorem C2_searchResults_append_monotone (s : ResearchState) (A B : List SearchResult) :
    (applyUpdate (applyUpdate s { searchResults := some A })
        { searchResults := some B }).searchResults = s.searchResults ++ A ++ B
    ∧ ∀ u : ResearchUpdate,
        s.searchResults.length ≤ (applyUpdate s u).searchResults.length := by
  constructor
  · simp [applyUpdate, searchResultsReducer]
  · intro u
    cases hu : u.searchResults <;>
      simp [applyUpdate, searchResultsReducer, hu]

/-- C8: the isValidQuestion reducer is last-write-wins with a truthy
fallback — a defined update replaces the current value, an undefined
update yields `true`, in particular even when the current value is
`false`. -/
theorem C8_isValidQuestion_reducer_lww :
    (∀ (c b : Bool), isValidQuestionReducer c (some b) = b)
    ∧ (∀ c : Bool, isValidQuestionReducer c none = true)
    ∧ isValidQuestionReducer false none = true := by
  refine ⟨fun c b => rfl, fun c => rfl, rfl⟩

/-- C9: applying the empty partial update is the identity on the state;
in particular `searchResults` and `metadata.steps` are untouched. -/
theorem C9_empty_update_identity (s : ResearchState) :
    applyUpdate s {} = s
    ∧ (applyUpdate s {}).searchResults = s.searchResults
    ∧ (applyUpdate s {}).metadata.steps = s.metadata.steps := by
  refine ⟨rfl, rfl, rfl⟩

/-- C7: the post-validation router returns "reject" exactly when
`isValidQuestion` is `false` and "planning" exactly when it is `true`;
the conditional edge out of "validate" sends "reject" to END and
"planning" to the plan node, and the edges planning → searching,
searching → synthesizing and synthesizing → END are unconditional. -/
theorem C7_router_and_wiring :
    (∀ s : ResearchState,
      (routeAfterValidation s = "reject" ↔ s.isValidQuestion = false)
      ∧ (routeAfterValidation s = "planning" ↔ s.isValidQuestion = true))
    ∧ conditionalEdgeMap "reject" = some GTarget.terminal
    ∧ conditionalEdgeMap "planning" = some (GTarget.node GNode.planning)
    ∧ (∀ s : ResearchState,
        nextAfter GNode.validate s =
          (if s.isValidQuestion = false then some GTarget.terminal
           else some (GTarget.node GNode.planning))
        ∧ nextAfter GNode.planning s = some (GTarget.node GNode.searching)
        ∧ nextAfter GNode.searching s = some (GTarget.node GNode.synthesizing)
        ∧ nextAfter GNode.synthesizing s = some GTarget.terminal) := by
  refine ⟨fun s => ?_, by simp [conditionalEdgeMap], by simp [conditionalEdgeMap], fun s => ?_⟩
  · cases hb : s.isValidQuestion <;> simp [routeAfterValidation, hb]
  · exact ⟨route_edge s, rfl, rfl, rfl⟩

/-- C6: when the plan is absent or its query list is empty, the Search
node fails with MissingPlanError, independently of the search
collaborator — no search request is issued. -/
theorem C6_search_missing_plan (tav tav2 : String → Option TavilyResponse)
    (s : ResearchState)
    (h : s.plan = none ∨ ∃ p, s.plan = some p ∧ p.queries = []) :
    searchNode tav s = Except.error NodeError.missingPlan
    ∧ searchNode tav s = searchNode tav2 s := by
  have hcase : ∀ (t : String → Option TavilyResponse),
      searchNode t s = Except.error NodeError.missingPlan := by
    intro t
    unfold searchNode
    rcases h with hnone | ⟨p, hp, hq⟩
    · rw [hnone]
    · rw [hp]; simp [hq]
  exact ⟨hcase tav, (hcase tav).trans (hcase tav2).symm⟩

/-- Witness for C6 at a concrete state with no plan and two distinct
collaborators. -/
theorem C6_search_missing_plan_witness :
    searchNode (fun _ => none) (createInitialState "q" 0) =
      Except.error NodeError.missingPlan
    ∧ searchNode (fun _ => none) (createInitialState "q" 0) =
        searchNode (fun _ => some { results := some [] }) (createInitialState "q" 0) :=
  C6_search_missing_plan (fun _ => none) (fun _ => some { results := some [] })
    (createInitialState "q" 0) (Or.inl rfl)

/-- C4: with no search results, the Synthesize node short-circuits: it
returns, without error and independently of the language-model
collaborator, the fixed "no results" report, the end time, and
"synthesize" appended to steps. -/
theorem C4_synthesize_empty_short_circuit (llm llm2 : String → String → Except Unit String)
    (now : Nat) (s : ResearchState) (h : s.searchResults = []) :
    synthesizeNode llm now s =
      Except.ok
        { report := some (some noResultsReport)
          metadata := some { steps := ["synthesize"], startTime := some s.metadata.startTime,
                             endTime := some now } }
    ∧ synthesizeNode llm now s = synthesizeNode llm2 now s := by
  have hcase : ∀ (f : String → String → Except Unit String),
      synthesizeNode f now s =
        Except.ok
          { report := some (some noResultsReport)
            metadata := some { steps := ["synthesize"], startTime := some s.metadata.startTime,
                               endTime := some now } } := by
    intro f
    unfold synthesizeNode
    rw [if_pos (by simp [h])]
  exact ⟨hcase llm, (hcase llm).trans (hcase llm2).symm⟩

/-- Witness for C4 at a concrete empty-results state, with one
collaborator that would fail and one that would answer. -/
theorem C4_synthesize_empty_witness :
    synthesizeNode (fun _ _ => Except.error ()) 99 (createInitialState "q" 5) =
      Except.ok
        { report := some (some noResultsReport)
          metadata := some { steps := ["synthesize"], startTime := some 5, endTime := some 99 } }
    ∧ synthesizeNode (fun _ _ => Except.error ()) 99 (createInitialState "q" 5) =
        synthesizeNode (fun _ _ => Except.ok "a report") 99 (createInitialState "q" 5) :=
  C4_synthesize_empty_short_circuit (fun _ _ => Except.error ())
    (fun _ _ => Except.ok "a report") 99 (createInitialState "q" 5) rfl

/-- C3: with a plan carrying a non-empty query list, the Search node
completes without error; its searchResults update is the concatenation, in
query-list order, of the results each query obtained, a failing query
contributing the empty list without aborting the others. -/
theorem C3_search_failure_isolation (tav : String → Option TavilyResponse)
    (s : ResearchState) (p : ResearchPlan) (hp : s.plan = some p)
    (hne : p.queries ≠ []) :
    searchNode tav s =
      Except.ok
        { searchResults := some ((p.queries.map (queryResults tav)).flatten)
          metadata := some { steps := ["search"], startTime := some s.metadata.startTime } } := by
  unfold searchNode
  rw [hp]
  simp only []
  rw [if_neg (by simpa using hne)]
  rw [collectResults_eq_flatten]

/-- The three-query scenario of the spec: query 1 returns two results,
query 2 throws, query 3 returns one result. -/
def c3tav : String → Option TavilyResponse := fun q =>
  if q = "q1" then
    some { results := some [{ title := some "t11" }, { title := some "t12" }] }
  else if q = "q2" then none
  else some { results := some [{ title := some "t31" }] }

/-- The plan of the three-query scenario. -/
def c3plan : ResearchPlan := { queries := ["q1", "q2", "q3"], reasoning := some "r" }

/-- A state carrying the three-query plan. -/
def c3state : ResearchState := { createInitialState "q" 0 with plan := some c3plan }

/-- Witness for C3: with query 2 failing, the update has exactly the
three successful entries, in query-list order. -/
theorem C3_search_failure_isolation_witness :
    searchNode c3tav c3state =
      Except.ok
        { searchResults := some
            [ { title := "t11", url := "", content := "", score := (1 : ℚ) / 2 },
              { title := "t12", url := "", content := "", score := (1 : ℚ) / 2 },
              { title := "t31", url := "", content := "", score := (1 : ℚ) / 2 } ]
          metadata := some { steps := ["search"], startTime := some 0 } } :=
  (C3_search_failure_isolation c3tav c3state c3plan rfl (by decide)).trans (by rfl)

/-- A reply whose brace-delimited JSON object parses but carries no
`reasoning` field. -/
def c5NoReasoningReply : String := "\x7b\"queries\": [\"alpha\"]\x7d"

/-- Evaluation shortcut: planNode applied to a collaborator that returns
`content` reduces to the three-stage parse of `content`. -/
lemma planNode_on_reply (content : String) (s : ResearchState) :
    planNode (fun _ => Except.ok content) s =
      match extractBraces content with
      | none => Except.error NodeError.planParse
      | some jsonText =>
        match parseJson jsonText with
        | none => Except.error NodeError.planParse
        | some j =>
          match getQueriesArr j with
          | none => Except.error NodeError.typeError
          | some elems =>
            Except.ok
              { plan := some (some { queries := elems.map jsToString,
                                     reasoning := getReasoning j })
                metadata := some { steps := ["plan"],
                                   startTime := some s.metadata.startTime } } := rfl

/-- C5 counterexample: the reply consisting of the JSON object
`(queries := ["alpha"])` with no `reasoning` field does not match the
claim's expected shape (queries plus reasoning), so the claim requires a
PlanParseError failure; instead planNode succeeds, storing a plan whose
reasoning is absent. -/
theorem C5_counterexample_missing_reasoning :
    planJson c5NoReasoningReply = some (Json.obj [("queries", Json.arr [Json.str "alpha"])])
    ∧ planNode (fun _ => Except.ok c5NoReasoningReply) (createInitialState "q" 0) =
        Except.ok
          { plan := some (some { queries := ["alpha"], reasoning := none })
            metadata := some { steps := ["plan"], startTime := some 0 } } :=
  ⟨rfl, rfl⟩

lemma asStringList_map_jsToString (elems : List Json) (qs : List String)
    (h : asStringList elems = some qs) : elems.map jsToString = qs := by
  induction elems generalizing qs with
  | nil =>
    simp only [asStringList, Option.some.injEq] at h
    rw [← h]; rfl
  | cons e rest ih =>
    cases e with
    | str t =>
      simp only [asStringList] at h
      cases hr : asStringList rest with
      | none => rw [hr] at h; simp at h
      | some qs2 =>
        rw [hr] at h
        simp only [Option.map] at h
        simp only [Option.some.injEq] at h
        rw [← h]
        simp [jsToString, ih qs2 hr]
    | null => simp [asStringList] at h
    | bool b => cases b <;> simp [asStringList] at h
    | num lit => simp [asStringList] at h
    | arr xs => simp [asStringList] at h
    | obj fs => simp [asStringList] at h

/-- C5 amended: a reply with no parseable JSON object (no brace-delimited
substring, or JSON.parse failing on it) fails with PlanParseError, with no
retry and no fabricated fallback plan; and a reply whose parsed object
carries a `queries` array of strings succeeds with the plan set to the
parsed value — the `reasoning` field being stored when present and not
required. -/
theorem C5_plan_parse_amended (content : String) (s : ResearchState) :
    (planJson content = none →
      planNode (fun _ => Except.ok content) s = Except.error NodeError.planParse)
    ∧ (∀ j qs, planJson content = some j → getQueries j = some qs →
        planNode (fun _ => Except.ok content) s =
          Except.ok
            { plan := some (some { queries := qs, reasoning := getReasoning j })
              metadata := some { steps := ["plan"],
                                 startTime := some s.metadata.startTime } }) := by
  rw [planNode_on_reply]
  unfold planJson
  cases he : extractBraces content with
  | none =>
    exact ⟨fun _ => rfl, fun j qs hj hq => by simp at hj⟩
  | some jsonText =>
    simp only [Option.some_bind]
    cases hp : parseJson jsonText with
    | none =>
      exact ⟨fun _ => rfl, fun j qs hj hq => by simp at hj⟩
    | some j0 =>
      refine ⟨fun hn => ?_, fun j qs hj hq => ?_⟩
      · simp at hn
      · obtain rfl : j0 = j := by simpa using hj
        simp only []
        unfold getQueries at hq
        cases ha : getQueriesArr j0 with
        | none => rw [ha] at hq; simp at hq
        | some elems =>
          rw [ha] at hq
          simp only [Option.some_bind] at hq
          simp only []
          rw [asStringList_map_jsToString elems qs hq]

/-- Witness for C5's amended claim: a reply with no braces at all fails
with PlanParseError. -/
theorem C5_plan_parse_amended_witness :
    planNode (fun _ => Except.ok "no json here") (createInitialState "w" 3) =
      Except.error NodeError.planParse :=
  (C5_plan_parse_amended "no json here" (createInitialState "w" 3)).1 rfl

lemma runFromSynthesizing_ok_steps (env : Collaborators) (s3 s : ResearchState)
    (h : runFromSynthesizing env s3 = Except.ok s) :
    s.metadata.steps = s3.metadata.steps ++ ["synthesize"] := by
  unfold runFromSynthesizing at h
  cases hc : synthesizeNode env.synthLLM env.now s3 with
  | error e => rw [hc] at h; exact absurd h (by simp)
  | ok u4 =>
    rw [hc] at h
    simp only [Except.ok.injEq] at h
    rw [← h]
    exact applyUpdate_meta_steps s3 u4 _ (synthesizeNode_ok_meta env.synthLLM env.now s3 u4 hc)

lemma runFromSearching_ok_steps (env : Collaborators) (s2 s : ResearchState)
    (h : runFromSearching env s2 = Except.ok s) :
    s.metadata.steps = s2.metadata.steps ++ ["search", "synthesize"] := by
  unfold runFromSearching at h
  cases hc : searchNode env.tavily s2 with
  | error e => rw [hc] at h; exact absurd h (by simp)
  | ok u3 =>
    rw [hc] at h
    have hsteps := runFromSynthesizing_ok_steps env (applyUpdate s2 u3) s h
    obtain ⟨p, hp, rfl⟩ := searchNode_ok_shape env.tavily s2 u3 hc
    rw [hsteps, applyUpdate_meta_steps s2 _ _ rfl]
    simp

lemma runFromPlanning_ok_steps (env : Collaborators) (s1 s : ResearchState)
    (h : runFromPlanning env s1 = Except.ok s) :
    s.metadata.steps = s1.metadata.steps ++ ["plan", "search", "synthesize"] := by
  unfold runFromPlanning at h
  cases hc : planNode env.planLLM s1 with
  | error e => rw [hc] at h; exact absurd h (by simp)
  | ok u2 =>
    rw [hc] at h
    have hsteps := runFromSearching_ok_steps env (applyUpdate s1 u2) s h
    rw [hsteps, applyUpdate_meta_steps s1 u2 _ (planNode_ok_meta env.planLLM s1 u2 hc)]
    simp

/-- C1: a run that returns successfully with a valid question went through
the full success path, and its final `metadata.steps` is exactly
["validate", "plan", "search", "synthesize"], each node having appended
its own step name, the reducer neither reordering nor truncating. -/
theorem C1_full_success_steps (env : Collaborators) (question : String) (t0 : Nat)
    (s : ResearchState) (h : runAgent env question t0 = Except.ok s)
    (hv : s.isValidQuestion = true) :
    s.metadata.steps = ["validate", "plan", "search", "synthesize"] := by
  unfold runAgent at h
  simp only [] at h
  cases h1 : validateQuestionNode env.validateLLM (createInitialState question t0) with
  | error e => rw [h1] at h; exact absurd h (by simp)
  | ok u1 =>
    rw [h1] at h
    simp only [] at h
    obtain ⟨b, rfl⟩ := validateQuestionNode_ok_shape env.validateLLM _ u1 h1
    rw [route_edge] at h
    have hvq : (applyUpdate (createInitialState question t0)
        { isValidQuestion := some (some b), metadata := some { steps := ["validate"] } }).isValidQuestion = b := by
      simp [applyUpdate, isValidQuestionReducer]
    cases b with
    | false =>
      rw [hvq] at h
      rw [if_pos rfl] at h
      simp only [Except.ok.injEq] at h
      rw [← h] at hv
      rw [hvq] at hv
      exact absurd hv (by simp)
    | true =>
      rw [hvq] at h
      rw [if_neg (by simp)] at h
      have hsteps := runFromPlanning_ok_steps env _ s h
      rw [hsteps, applyUpdate_meta_steps _ _ _ rfl]
      rfl

/-- A concrete set of collaborators on which the full success path runs:
the validator accepts, the planner replies with a well-formed fenced JSON
plan of two queries, both queries return results, and synthesis replies
with a cited report. -/
def c1Env : Collaborators :=
  { validateLLM := fun _ => Except.ok { valid := true, reason := "clear", suggestion := none }
    planLLM := fun _ => Except.ok
      "Plan: \x7b\"reasoning\": \"two angles\", \"queries\": [\"photosynthesis basics\", \"photosynthesis stages\"]\x7d"
    tavily := fun q =>
      if q = "photosynthesis basics" then
        some { results := some [{ title := some "A", url := some "ua", content := some "ca",
                                  score := some 1 }] }
      else
        some { results := some [{ title := some "B", url := some "ub", content := some "cb",
                                  score := some 1 }] }
    synthLLM := fun _ _ => Except.ok "Photosynthesis converts light [1] into energy [2]."
    now := 42 }

/-- The final state of the concrete full run. -/
def c1Final : ResearchState :=
  match runAgent c1Env "What is photosynthesis?" 7 with
  | Except.ok s => s
  | Except.error _ => createInitialState "" 0

/-- Witness for C1: the concrete full run succeeds with a valid question
and its steps are exactly the four node names in order. -/
theorem C1_full_success_steps_witness :
    c1Final.metadata.steps = ["validate", "plan", "search", "synthesize"] :=
  C1_full_success_steps c1Env "What is photosynthesis?" 7 c1Final (by rfl) (by rfl)

lemma nodeStep_startTime (a b : ResearchState) (h : NodeStep a b) :
    b.metadata.startTime = a.metadata.startTime := by
  cases h with
  | validate llm u hu =>
    obtain ⟨bb, rfl⟩ := validateQuestionNode_ok_shape llm a u hu
    simp [applyUpdate, metadataReducer]
  | planning llm u hu =>
    rw [applyUpdate_meta_startTime, planNode_ok_meta llm a u hu]
    rfl
  | searching tav u hu =>
    obtain ⟨p, hp, rfl⟩ := searchNode_ok_shape tav a u hu
    simp [applyUpdate, metadataReducer]
  | synthesizing llm now u hu =>
    rw [applyUpdate_meta_startTime, synthesizeNode_ok_meta llm now a u hu]
    rfl

/-- C10: the metadata reducer shallow-merges the update keys over the
current value (so `startTime` is replaced only when the update carries the
key), every node forwards the existing start time (or omits the key), and
hence over any sequence of node steps `metadata.startTime` never changes
from the value set at state creation. -/
theorem C10_startTime_invariant :
    (∀ (c : RunMetadata) (u : MetaUpdate),
      (metadataReducer c u).startTime = u.startTime.getD c.startTime)
    ∧ (∀ s llm u, planNode llm s = Except.ok u →
        u.metadata = some { steps := ["plan"], startTime := some s.metadata.startTime })
    ∧ (∀ s tav u, searchNode tav s = Except.ok u →
        ∃ p, u.metadata = some { steps := ["search"], startTime := some s.metadata.startTime }
          ∧ s.plan = some p)
    ∧ (∀ s llm now u, synthesizeNode llm now s = Except.ok u →
        u.metadata = some { steps := ["synthesize"], startTime := some s.metadata.startTime,
                            endTime := some now })
    ∧ (∀ a b : ResearchState, Relation.ReflTransGen NodeStep a b →
        b.metadata.startTime = a.metadata.startTime) := by
  refine ⟨fun c u => rfl, fun s llm u hu => planNode_ok_meta llm s u hu,
    fun s tav u hu => ?_, fun s llm now u hu => synthesizeNode_ok_meta llm now s u hu,
    fun a b hab => ?_⟩
  · obtain ⟨p, hp, rfl⟩ := searchNode_ok_shape tav s u hu
    exact ⟨p, rfl, hp⟩
  · induction hab with
    | refl => rfl
    | tail hab hbc ih => rw [nodeStep_startTime _ _ hbc, ih]

/-- The successful search update of the three-query scenario, used as a
concrete node step. -/
def c10Upd : ResearchUpdate :=
  { searchResults := some (collectResults c3tav c3plan.queries)
    metadata := some { steps := ["search"], startTime := some 0 } }

/-- Witness for C10: one concrete search step leaves the start time of the
three-query state unchanged. -/
theorem C10_startTime_invariant_witness :
    (applyUpdate c3state c10Upd).metadata.startTime = c3state.metadata.startTime :=
  C10_startTime_invariant.2.2.2.2 c3state (applyUpdate c3state c10Upd)
    (Relation.ReflTransGen.single (NodeStep.searching c3state c3tav c10Upd (by rfl)))
